import Mathlib

/-!
Shallow embedding of the FoodFlow household food-management application
(`app/smart_functions.py`, `app/ai_functions.py`, `app/routes.py`) and
proofs about its derived metrics, unit normalization, recipe filtering and
shopping-list completion logic.  Machine floats are modelled as exact
rationals; Python `int()` is truncation toward zero and Python `round` is
round-half-to-even.
-/

namespace FoodFlow

/-- Python `int(x)` on a float: truncation toward zero. -/
def pyTrunc (x : ℚ) : ℤ :=
  if x < 0 then ⌈x⌉ else ⌊x⌋

/-- Python `round(x)`: round half to even (banker's rounding), on exact rationals. -/
def pyRoundHalfEven (x : ℚ) : ℤ :=
  if x - ⌊x⌋ < 1/2 then ⌊x⌋
  else if 1/2 < x - ⌊x⌋ then ⌊x⌋ + 1
  else if ⌊x⌋ % 2 = 0 then ⌊x⌋ else ⌊x⌋ + 1

/-- Python `round(x, 2)`. -/
def pyRound2 (x : ℚ) : ℚ :=
  (pyRoundHalfEven (x * 100) : ℚ) / 100

/-- Python `round(x, 1)`. -/
def pyRound1 (x : ℚ) : ℚ :=
  (pyRoundHalfEven (x * 10) : ℚ) / 10

lemma pyTrunc_mono {x y : ℚ} (h : x ≤ y) : pyTrunc x ≤ pyTrunc y := by
  unfold pyTrunc
  split_ifs with hx hy hy
  · exact Int.ceil_le_ceil h
  · have h1 : ⌈x⌉ ≤ 0 := Int.ceil_le.mpr (by exact_mod_cast hx.le)
    have h2 : (0:ℤ) ≤ ⌊y⌋ := Int.floor_nonneg.mpr (not_lt.mp hy)
    omega
  · exact absurd (h.trans_lt hy) hx
  · exact Int.floor_le_floor h

/-! ## Waste-reduction score (`smart_functions.calculate_waste_reduction_score`)

The aggregate query yields `total_quantity` and `wasted_quantity`; the rest of
the function is pure arithmetic on those two numbers, embedded here. -/

structure WasteScore where
  score : ℤ
  grade : String
  percentage : ℚ
  deriving Repr, DecidableEq

/-- the `score = max(0, min(100, int(100 - waste_percentage)))` line of
`calculate_waste_reduction_score`. -/
def waste_score_value (total_quantity wasted_quantity : ℚ) : ℤ :=
  max 0 (min 100 (pyTrunc (100 - wasted_quantity / total_quantity * 100)))

/-- the grade if-chain of `calculate_waste_reduction_score`. -/
def waste_grade (score : ℤ) : String :=
  if score ≥ 90 then "A"
  else if score ≥ 80 then "B"
  else if score ≥ 70 then "C"
  else if score ≥ 60 then "D"
  else "F"

/-- Embedding of `calculate_waste_reduction_score` including the early
`total_quantity == 0` branch that returns a perfect score. -/
def calculate_waste_reduction_score (total_quantity wasted_quantity : ℚ) : WasteScore :=
  if total_quantity = 0 then
    { score := 100, grade := "A", percentage := 100 }
  else
    { score := waste_score_value total_quantity wasted_quantity
      grade := waste_grade (waste_score_value total_quantity wasted_quantity)
      percentage := pyRound1 (100 - wasted_quantity / total_quantity * 100) }

lemma waste_score_eq_floor {t w : ℚ} (ht : 0 < t) (hw0 : 0 ≤ w) (hwt : w ≤ t) :
    (calculate_waste_reduction_score t w).score = ⌊100 - w / t * 100⌋ := by
  have ht0 : t ≠ 0 := ne_of_gt ht
  have hf1 : w / t ≤ 1 := (div_le_one ht).mpr hwt
  have hf0 : 0 ≤ w / t := div_nonneg hw0 ht.le
  have h0 : (0:ℚ) ≤ 100 - w / t * 100 := by nlinarith
  have h100 : 100 - w / t * 100 ≤ 100 := by nlinarith
  have htr : pyTrunc (100 - w / t * 100) = ⌊100 - w / t * 100⌋ := by
    unfold pyTrunc
    rw [if_neg (not_lt.mpr h0)]
  have hfl0 : (0:ℤ) ≤ ⌊100 - w / t * 100⌋ := Int.floor_nonneg.mpr h0
  have hfl100 : ⌊100 - w / t * 100⌋ ≤ 100 := by
    calc ⌊100 - w / t * 100⌋ ≤ ⌊(100:ℚ)⌋ := Int.floor_le_floor h100
      _ = 100 := by norm_num
  simp only [calculate_waste_reduction_score, if_neg ht0, waste_score_value, htr]
  omega

/-- C5 counterexample: with 1 of 3 units wasted the code scores
`int(100 - 100/3) = 66`, which differs from the exact clamped value
`100 − (1/3)·100 = 200/3` the claim states, so the claimed equality fails. -/
theorem C5_score_truncation_counterexample :
    (calculate_waste_reduction_score 3 1).score = 66 ∧
    ((calculate_waste_reduction_score 3 1).score : ℚ) ≠ max 0 (min 100 (100 - 1 / 3 * 100)) := by
  have hfl : ⌊(100:ℚ) - 1 / 3 * 100⌋ = 66 := by
    rw [Int.floor_eq_iff]
    constructor <;> norm_num
  have hs : (calculate_waste_reduction_score 3 1).score = 66 := by
    rw [waste_score_eq_floor (by norm_num) (by norm_num) (by norm_num), hfl]
  refine ⟨hs, ?_⟩
  rw [hs]
  have hmin : min (100:ℚ) (100 - 1 / 3 * 100) = 100 - 1 / 3 * 100 := by
    rw [min_eq_right (by norm_num)]
  have hmax : max (0:ℚ) (100 - 1 / 3 * 100) = 100 - 1 / 3 * 100 := by
    rw [max_eq_right (by norm_num)]
  rw [hmin, hmax]
  norm_num

/-- C5 (amended): for `0 < total` and `0 ≤ wasted ≤ total` the score is the
integer floor (= truncation) of `100 − wasted/total·100`, clamped to `[0,100]`
(the clamp is then a no-op); it is monotonically non-increasing in the wasted
fraction, equals 100 at a 0% wasted fraction and 0 at 100%, and the grade is
assigned in the 10-point bands A/B/C/D/F. -/
theorem C5_amended_waste_score :
    (∀ t w : ℚ, 0 < t → 0 ≤ w → w ≤ t →
      (calculate_waste_reduction_score t w).score = ⌊100 - w / t * 100⌋ ∧
      (calculate_waste_reduction_score t 0).score = 100 ∧
      (calculate_waste_reduction_score t t).score = 0) ∧
    (∀ t₁ w₁ t₂ w₂ : ℚ, 0 < t₁ → 0 ≤ w₁ → 0 < t₂ → 0 ≤ w₂ →
      w₁ / t₁ ≤ w₂ / t₂ →
      (calculate_waste_reduction_score t₂ w₂).score ≤ (calculate_waste_reduction_score t₁ w₁).score) ∧
    (∀ t w : ℚ,
      ((calculate_waste_reduction_score t w).score ≥ 90 → (calculate_waste_reduction_score t w).grade = "A") ∧
      ((calculate_waste_reduction_score t w).score ≥ 80 → (calculate_waste_reduction_score t w).score < 90 → (calculate_waste_reduction_score t w).grade = "B") ∧
      ((calculate_waste_reduction_score t w).score ≥ 70 → (calculate_waste_reduction_score t w).score < 80 → (calculate_waste_reduction_score t w).grade = "C") ∧
      ((calculate_waste_reduction_score t w).score ≥ 60 → (calculate_waste_reduction_score t w).score < 70 → (calculate_waste_reduction_score t w).grade = "D") ∧
      ((calculate_waste_reduction_score t w).score < 60 → (calculate_waste_reduction_score t w).grade = "F")) := by
  refine ⟨?_, ?_, ?_⟩
  · intro t w ht hw0 hwt
    refine ⟨waste_score_eq_floor ht hw0 hwt, ?_, ?_⟩
    · rw [waste_score_eq_floor ht le_rfl ht.le, zero_div, zero_mul, sub_zero]
      norm_num
    · rw [waste_score_eq_floor ht ht.le le_rfl, div_self (ne_of_gt ht), one_mul, sub_self]
      norm_num
  · intro t₁ w₁ t₂ w₂ ht₁ hw₁ ht₂ hw₂ hfr
    have h1 : t₁ ≠ 0 := ne_of_gt ht₁
    have h2 : t₂ ≠ 0 := ne_of_gt ht₂
    simp only [calculate_waste_reduction_score, if_neg h1, if_neg h2, waste_score_value]
    have hsub : 100 - w₂ / t₂ * 100 ≤ 100 - w₁ / t₁ * 100 := by nlinarith
    have := pyTrunc_mono hsub
    omega
  · intro t w
    by_cases ht : t = 0
    · simp only [calculate_waste_reduction_score, if_pos ht]
      norm_num
    · simp only [calculate_waste_reduction_score, if_neg ht, waste_grade]
      refine ⟨?_, ?_, ?_, ?_, ?_⟩ <;> intros <;> split_ifs <;>
        first | rfl | (exfalso; omega)

theorem C5_amended_witness :
    ((0:ℚ) < 4 ∧ (0:ℚ) ≤ 1 ∧ (1:ℚ) ≤ 4 ∧
      (calculate_waste_reduction_score 4 1).score = ⌊(100:ℚ) - 1 / 4 * 100⌋ ∧
      (calculate_waste_reduction_score 4 0).score = 100 ∧
      (calculate_waste_reduction_score 4 4).score = 0) ∧
    ((1:ℚ) / 4 ≤ 2 / 4 ∧
      (calculate_waste_reduction_score 4 2).score ≤ (calculate_waste_reduction_score 4 1).score) := by
  refine ⟨⟨by norm_num, by norm_num, by norm_num, ?_, ?_, ?_⟩, ⟨by norm_num, ?_⟩⟩
  · exact (C5_amended_waste_score.1 4 1 (by norm_num) (by norm_num) (by norm_num)).1
  · exact (C5_amended_waste_score.1 4 1 (by norm_num) (by norm_num) (by norm_num)).2.1
  · exact (C5_amended_waste_score.1 4 1 (by norm_num) (by norm_num) (by norm_num)).2.2
  · exact C5_amended_waste_score.2.1 4 1 4 2 (by norm_num) (by norm_num) (by norm_num) (by norm_num) (by norm_num)

/-! ## Gamification level (`smart_functions.calculate_level`) -/

/-- Embedding of `calculate_level`: `1` for negative points, otherwise
`max(1, int(math.sqrt(points / 100)) + 1)`; the float square root is
modelled exactly, so `int(math.sqrt(points/100))` is `Nat.sqrt (points / 100)`. -/
def calculate_level (points : ℤ) : ℕ :=
  if points < 0 then 1
  else max 1 (Nat.sqrt (points.toNat / 100) + 1)

lemma nat_floor_sqrt_div100 (n : ℕ) :
    ⌊Real.sqrt ((n : ℝ) / 100)⌋₊ = Nat.sqrt (n / 100) := by
  have hx : (0:ℝ) ≤ (n:ℝ)/100 := by positivity
  apply le_antisymm
  · rw [Nat.le_sqrt, Nat.le_div_iff_mul_le (by norm_num : 0 < 100)]
    have hk : ((⌊Real.sqrt ((n:ℝ)/100)⌋₊ : ℝ)) ≤ Real.sqrt ((n:ℝ)/100) :=
      Nat.floor_le (Real.sqrt_nonneg _)
    have hs := Real.sq_sqrt hx
    have h3 : ((⌊Real.sqrt ((n:ℝ)/100)⌋₊ : ℝ)) * ⌊Real.sqrt ((n:ℝ)/100)⌋₊ * 100 ≤ (n:ℝ) := by
      nlinarith [Real.sqrt_nonneg ((n:ℝ)/100)]
    exact_mod_cast h3
  · apply Nat.le_floor
    rw [Real.le_sqrt (by positivity) hx]
    have h1 : Nat.sqrt (n / 100) ^ 2 ≤ n / 100 := Nat.sqrt_le' _
    have h2 : Nat.sqrt (n / 100) ^ 2 * 100 ≤ n := by
      calc Nat.sqrt (n / 100) ^ 2 * 100 ≤ (n / 100) * 100 := Nat.mul_le_mul_right _ h1
        _ ≤ n := Nat.div_mul_le_self n 100
    have h3 : ((Nat.sqrt (n/100) : ℝ)) ^ 2 * 100 ≤ (n:ℝ) := by exact_mod_cast h2
    nlinarith

/-- C8: for non-negative points the level is `⌊√(points/100)⌋ + 1`, the level
is monotonically non-decreasing in points, and `calculate_level 0 = 1`. -/
theorem C8_calculate_level_floor_sqrt :
    (∀ p : ℤ, 0 ≤ p → calculate_level p = ⌊Real.sqrt ((p : ℝ) / 100)⌋₊ + 1) ∧
    (∀ p q : ℤ, p ≤ q → calculate_level p ≤ calculate_level q) ∧
    calculate_level 0 = 1 := by
  refine ⟨?_, ?_, by decide⟩
  · intro p hp
    have hnl : ¬ p < 0 := not_lt.mpr hp
    have hcast : ((p.toNat : ℝ)) = (p : ℝ) := by exact_mod_cast Int.toNat_of_nonneg hp
    rw [calculate_level, if_neg hnl, ← hcast, nat_floor_sqrt_div100]
    omega
  · intro p q hpq
    unfold calculate_level
    split_ifs with hp hq hq
    · omega
    · exact Nat.le_max_left 1 _
    · omega
    · have h1 : p.toNat ≤ q.toNat := Int.toNat_le_toNat hpq
      have h2 : p.toNat / 100 ≤ q.toNat / 100 := Nat.div_le_div_right h1
      have := Nat.sqrt_le_sqrt h2
      omega

theorem C8_witness :
    ((0:ℤ) ≤ 250 ∧ calculate_level 250 = ⌊Real.sqrt ((250 : ℝ) / 100)⌋₊ + 1) ∧
    ((0:ℤ) ≤ 300 ∧ calculate_level 0 ≤ calculate_level 300) :=
  ⟨⟨by decide, C8_calculate_level_floor_sqrt.1 250 (by decide)⟩,
   ⟨by decide, C8_calculate_level_floor_sqrt.2.1 0 300 (by decide)⟩⟩



/-! ## Shopping-list completion (`routes.complete_shopping_list`) -/

structure Product where
  user_id : ℕ
  name : String
  quantity : ℚ
  unit : String
  category : String
  min_quantity : ℚ
  wasted : Bool
  deriving Repr, DecidableEq

structure ShoppingItem where
  name : String
  quantity : ℚ
  unit : String
  category : Option String
  completed : Bool
  deriving Repr, DecidableEq

structure ShoppingList where
  user_id : ℕ
  completed : Bool
  items : List ShoppingItem
  deriving Repr, DecidableEq

/-- the `Product.query.filter_by(user_id=..., name=item.name, wasted=False)`
match predicate: user, exact name and non-wasted flag only. -/
def product_matches_item (uid : ℕ) (it : ShoppingItem) (p : Product) : Bool :=
  p.user_id == uid && p.name == it.name && p.wasted == false

/-- Python `item.category or 'Altro'`. -/
def pyOrAltro : Option String → String
  | none => "Altro"
  | some s => if s = "" then "Altro" else s

/-- the `Product(...)` constructor call in the no-match branch (the
`expiry_date=now+30d` column is omitted as no claim concerns it). -/
def new_product_from_item (uid : ℕ) (it : ShoppingItem) : Product :=
  { user_id := uid, name := it.name, quantity := it.quantity, unit := it.unit,
    category := pyOrAltro it.category, min_quantity := it.quantity * (1/5), wasted := false }

/-- `existing.quantity += item.quantity` on the first row returned by the query. -/
def update_first_matching (uid : ℕ) (it : ShoppingItem) : List Product → List Product
  | [] => []
  | p :: ps =>
    if product_matches_item uid it p then { p with quantity := p.quantity + it.quantity } :: ps
    else p :: update_first_matching uid it ps

/-- one iteration of the `for item in completed_items` loop, acting on the
product table only. -/
def apply_completed_item (uid : ℕ) (db : List Product) (it : ShoppingItem) : List Product :=
  if db.any (product_matches_item uid it) then update_first_matching uid it db
  else db ++ [new_product_from_item uid it]

/-- one iteration of the loop carrying the `added`/`updated` counters. -/
def fold_completed_item (uid : ℕ) (st : List Product × ℕ × ℕ) (it : ShoppingItem) :
    List Product × ℕ × ℕ :=
  if st.1.any (product_matches_item uid it) then
    (update_first_matching uid it st.1, st.2.1, st.2.2 + 1)
  else
    (st.1 ++ [new_product_from_item uid it], st.2.1 + 1, st.2.2)

inductive CompleteListResult where
  | forbidden
  | alreadyCompleted
  | noCompletedItems
  | ok (pantry : List Product) (points : ℕ)
  deriving Repr, DecidableEq

/-- Embedding of the `complete_shopping_list` route: ownership check,
one-way completion check, fold of completed items into the pantry, and
`points = (added + updated) * 2`. -/
def complete_shopping_list (uid : ℕ) (sl : ShoppingList) (pantry : List Product) :
    CompleteListResult :=
  if sl.user_id ≠ uid then .forbidden
  else if sl.completed then .alreadyCompleted
  else if sl.items.filter (fun it => it.completed) = [] then .noCompletedItems
  else
    CompleteListResult.ok
      ((sl.items.filter (fun it => it.completed)).foldl (fold_completed_item uid) (pantry, 0, 0)).1
      ((((sl.items.filter (fun it => it.completed)).foldl (fold_completed_item uid) (pantry, 0, 0)).2.1 +
        ((sl.items.filter (fun it => it.completed)).foldl (fold_completed_item uid) (pantry, 0, 0)).2.2) * 2)

lemma fold_completed_item_fst (uid : ℕ) (items : List ShoppingItem) :
    ∀ (db : List Product) (a u : ℕ),
      (items.foldl (fold_completed_item uid) (db, a, u)).1 =
        items.foldl (apply_completed_item uid) db := by
  induction items with
  | nil => intro db a u; rfl
  | cons it rest ih =>
    intro db a u
    simp only [List.foldl_cons, fold_completed_item, apply_completed_item]
    split_ifs with h
    · exact ih _ _ _
    · exact ih _ _ _

lemma update_first_matching_split (uid : ℕ) (it : ShoppingItem)
    (pre post : List Product) (p : Product)
    (hmatch : product_matches_item uid it p = true)
    (hpre : ∀ q ∈ pre, product_matches_item uid it q = false) :
    update_first_matching uid it (pre ++ p :: post) =
      pre ++ { p with quantity := p.quantity + it.quantity } :: post := by
  induction pre with
  | nil => simp [update_first_matching, hmatch]
  | cons q qs ih =>
    have hq : product_matches_item uid it q = false := hpre q (List.mem_cons_self q qs)
    simp only [List.cons_append, update_first_matching, hq, Bool.false_eq_true, if_false,
      List.append_eq]
    rw [ih (fun r hr => hpre r (List.mem_cons_of_mem q hr))]

/-- C1: completing a non-completed list owned by the user folds each completed
item into the pantry in order; an item with no matching (user, name, non-wasted)
product appends exactly one new product row carrying the item's quantity and
unit, while an item with a matching product increments the first such row's
quantity and creates no row. -/
theorem C1_complete_list_restocks_pantry (uid : ℕ) (sl : ShoppingList) (pantry : List Product)
    (hown : sl.user_id = uid) (hnc : sl.completed = false)
    (hne : sl.items.filter (fun it => it.completed) ≠ []) :
    (∃ pts, complete_shopping_list uid sl pantry =
        .ok ((sl.items.filter (fun it => it.completed)).foldl (apply_completed_item uid) pantry) pts) ∧
    (∀ (db : List Product) (it : ShoppingItem),
      (¬ ∃ p ∈ db, product_matches_item uid it p = true) →
      apply_completed_item uid db it = db ++ [new_product_from_item uid it] ∧
      (new_product_from_item uid it).quantity = it.quantity ∧
      (new_product_from_item uid it).unit = it.unit ∧
      (apply_completed_item uid db it).length = db.length + 1) ∧
    (∀ (it : ShoppingItem) (pre post : List Product) (p : Product),
      product_matches_item uid it p = true →
      (∀ q ∈ pre, product_matches_item uid it q = false) →
      apply_completed_item uid (pre ++ p :: post) it =
        pre ++ { p with quantity := p.quantity + it.quantity } :: post ∧
      (apply_completed_item uid (pre ++ p :: post) it).length = (pre ++ p :: post).length) := by
  refine ⟨?_, ?_, ?_⟩
  · refine ⟨(((sl.items.filter (fun it => it.completed)).foldl (fold_completed_item uid) (pantry, 0, 0)).2.1 +
      ((sl.items.filter (fun it => it.completed)).foldl (fold_completed_item uid) (pantry, 0, 0)).2.2) * 2, ?_⟩
    unfold complete_shopping_list
    rw [if_neg (by simp [hown]), if_neg (by simp [hnc]), if_neg hne, fold_completed_item_fst]
  · intro db it hno
    have hany : db.any (product_matches_item uid it) = false := by
      rw [List.any_eq_false]
      intro p hp
      exact fun hc => hno ⟨p, hp, hc⟩
    refine ⟨?_, rfl, rfl, ?_⟩
    · unfold apply_completed_item
      rw [hany]
      simp
    · unfold apply_completed_item
      rw [hany]
      simp
  · intro it pre post p hmatch hpre
    have hany : (pre ++ p :: post).any (product_matches_item uid it) = true := by
      rw [List.any_eq_true]
      exact ⟨p, by simp, hmatch⟩
    have hupd := update_first_matching_split uid it pre post p hmatch hpre
    constructor
    · unfold apply_completed_item
      rw [hany]
      simpa using hupd
    · unfold apply_completed_item
      rw [hany]
      simp only [if_true]
      rw [hupd]
      simp

theorem C1_witness :
    let pastaItem : ShoppingItem :=
      { name := "Pasta", quantity := 500, unit := "g", category := none, completed := true }
    let sl : ShoppingList := { user_id := 1, completed := false, items := [pastaItem] }
    (sl.user_id = 1 ∧ sl.completed = false ∧ sl.items.filter (fun it => it.completed) ≠ []) ∧
    (∃ pts, complete_shopping_list 1 sl [] =
        .ok ((sl.items.filter (fun it => it.completed)).foldl (apply_completed_item 1) []) pts) := by
  refine ⟨⟨rfl, rfl, by decide⟩, ?_⟩
  exact (C1_complete_list_restocks_pantry 1 _ [] rfl rfl (by decide)).1


/-- C10: the pantry match during list completion is by user, exact name and
non-wasted flag only — the unit plays no role — so an item whose name matches
an existing non-wasted product with a different unit increments that product's
quantity while the product keeps its original unit, and no row is created. -/
theorem C10_item_match_ignores_unit (uid : ℕ) (sl : ShoppingList) (it : ShoppingItem)
    (pre post : List Product) (p : Product)
    (hown : sl.user_id = uid) (hnc : sl.completed = false)
    (hitems : sl.items.filter (fun i => i.completed) = [it])
    (hmatch : product_matches_item uid it p = true)
    (hpre : ∀ q ∈ pre, product_matches_item uid it q = false)
    (hunit : p.unit ≠ it.unit) :
    complete_shopping_list uid sl (pre ++ p :: post) =
      .ok (pre ++ { p with quantity := p.quantity + it.quantity } :: post) 2 ∧
    ({ p with quantity := p.quantity + it.quantity } : Product).unit = p.unit ∧
    (pre ++ ({ p with quantity := p.quantity + it.quantity } : Product) :: post).length
      = (pre ++ p :: post).length := by
  have hany : (pre ++ p :: post).any (product_matches_item uid it) = true := by
    rw [List.any_eq_true]
    exact ⟨p, by simp, hmatch⟩
  have hupd := update_first_matching_split uid it pre post p hmatch hpre
  refine ⟨?_, rfl, by simp⟩
  unfold complete_shopping_list
  rw [if_neg (by simp [hown]), if_neg (by simp [hnc]), if_neg (by rw [hitems]; simp), hitems]
  simp only [List.foldl_cons, List.foldl_nil, fold_completed_item, hany, if_true]
  rw [hupd]

theorem C10_witness :
    let pastaItem : ShoppingItem :=
      { name := "Pasta", quantity := 500, unit := "g", category := none, completed := true }
    let sl : ShoppingList := { user_id := 1, completed := false, items := [pastaItem] }
    let existing : Product :=
      { user_id := 1, name := "Pasta", quantity := 200, unit := "pz", category := "Altro",
        min_quantity := 0, wasted := false }
    (sl.user_id = 1 ∧ sl.completed = false ∧
      sl.items.filter (fun i => i.completed) = [pastaItem] ∧
      product_matches_item 1 pastaItem existing = true ∧
      existing.unit ≠ pastaItem.unit) ∧
    complete_shopping_list 1 sl [existing] =
      .ok [{ existing with quantity := existing.quantity + pastaItem.quantity }] 2 := by
  refine ⟨⟨rfl, rfl, by decide, by decide, by decide⟩, ?_⟩
  have h := C10_item_match_ignores_unit 1
    { user_id := 1, completed := false,
      items := [{ name := "Pasta", quantity := 500, unit := "g", category := none, completed := true }] }
    { name := "Pasta", quantity := 500, unit := "g", category := none, completed := true }
    [] []
    { user_id := 1, name := "Pasta", quantity := 200, unit := "pz", category := "Altro",
      min_quantity := 0, wasted := false }
    rfl rfl (by decide) (by decide) (by intro q hq; cases hq) (by decide)
  exact h.1



def pySpace (c : Char) : Bool :=
  c = ' ' || c = '\t' || c = '\n' || c = '\r'

def asciiCasePairs : List (Char × Char) :=
  [('A','a'), ('B','b'), ('C','c'), ('D','d'), ('E','e'), ('F','f'), ('G','g'),
   ('H','h'), ('I','i'), ('J','j'), ('K','k'), ('L','l'), ('M','m'), ('N','n'),
   ('O','o'), ('P','p'), ('Q','q'), ('R','r'), ('S','s'), ('T','t'), ('U','u'),
   ('V','v'), ('W','w'), ('X','x'), ('Y','y'), ('Z','z')]

def pyLowerChar (c : Char) : Char :=
  match asciiCasePairs.find? (fun pr => pr.1 == c) with
  | some pr => pr.2
  | none => c

lemma pyLowerChar_of_find?_none {c : Char}
    (h : asciiCasePairs.find? (fun pr => pr.1 == c) = none) : pyLowerChar c = c := by
  rw [pyLowerChar, h]

lemma pyLowerChar_of_find?_some {c : Char} {pr : Char × Char}
    (h : asciiCasePairs.find? (fun q => q.1 == c) = some pr) : pyLowerChar c = pr.2 := by
  rw [pyLowerChar, h]

lemma pyLowerChar_lower_fixed {pr : Char × Char} (h : pr ∈ asciiCasePairs) :
    pyLowerChar pr.2 = pr.2 := by
  fin_cases h <;> rfl

lemma pyLowerChar_idem (c : Char) : pyLowerChar (pyLowerChar c) = pyLowerChar c := by
  cases hf : asciiCasePairs.find? (fun pr => pr.1 == c) with
  | none =>
    rw [pyLowerChar_of_find?_none hf]
    exact pyLowerChar_of_find?_none hf
  | some pr =>
    rw [pyLowerChar_of_find?_some hf]
    exact pyLowerChar_lower_fixed (List.mem_of_find?_eq_some hf)

lemma pySpace_pyLowerChar (c : Char) : pySpace (pyLowerChar c) = pySpace c := by
  cases hf : asciiCasePairs.find? (fun pr => pr.1 == c) with
  | none => rw [pyLowerChar_of_find?_none hf]
  | some pr =>
    rw [pyLowerChar_of_find?_some hf]
    have hm := List.mem_of_find?_eq_some hf
    have hp := List.find?_some hf
    have hc : pr.1 = c := by simpa using hp
    rw [← hc]
    fin_cases hm <;> rfl

def pyStripList (l : List Char) : List Char :=
  ((l.dropWhile pySpace).reverse.dropWhile pySpace).reverse

def pyLowerList (l : List Char) : List Char := l.map pyLowerChar

def pyStripLower (s : String) : String := ⟨pyLowerList (pyStripList s.data)⟩

lemma dropWhile_self {α : Type} (p : α → Bool) (l : List α) :
    (l.dropWhile p).dropWhile p = l.dropWhile p := by
  induction l with
  | nil => rfl
  | cons a t ih =>
    by_cases h : p a
    · rw [List.dropWhile_cons_of_pos h]
      exact ih
    · rw [List.dropWhile_cons_of_neg h, List.dropWhile_cons_of_neg h]

lemma dropWhile_eq_self_of_head {α : Type} (p : α → Bool) (l : List α)
    (h : ∀ a ∈ l.head?, p a = false) : l.dropWhile p = l := by
  cases l with
  | nil => rfl
  | cons a t =>
    have ha : p a = false := h a rfl
    rw [List.dropWhile_cons_of_neg (by simp [ha])]

lemma getLast?_dropWhile_of_ne_nil {α : Type} (p : α → Bool) (l : List α)
    (h : l.dropWhile p ≠ []) : (l.dropWhile p).getLast? = l.getLast? := by
  obtain ⟨t, ht⟩ := List.dropWhile_suffix (l := l) p
  conv_rhs => rw [← ht]
  rw [List.getLast?_append]
  exact (Option.or_of_isSome (List.getLast?_isSome.mpr h)).symm

lemma head?_pyStripList (l : List Char) :
    ∀ a ∈ (pyStripList l).head?, pySpace a = false := by
  intro a ha
  unfold pyStripList at ha
  rw [List.head?_reverse] at ha
  by_cases h2 : (l.dropWhile pySpace).reverse.dropWhile pySpace = []
  · rw [h2] at ha
    cases ha
  · rw [getLast?_dropWhile_of_ne_nil _ _ h2, List.getLast?_reverse] at ha
    have hd := List.head?_dropWhile_not pySpace l
    revert hd
    cases hh : (l.dropWhile pySpace).head? with
    | none => rw [hh] at ha; cases ha
    | some b =>
      rw [hh] at ha
      cases ha
      intro hd
      exact hd

lemma pyStripList_idem (l : List Char) : pyStripList (pyStripList l) = pyStripList l := by
  by_cases h2 : (l.dropWhile pySpace).reverse.dropWhile pySpace = []
  · have hnil : pyStripList l = [] := by
      unfold pyStripList
      rw [h2]
      rfl
    rw [hnil]
    rfl
  · have h1 : (pyStripList l).dropWhile pySpace = pyStripList l :=
      dropWhile_eq_self_of_head _ _ (head?_pyStripList l)
    have hrev : (pyStripList l).reverse = (l.dropWhile pySpace).reverse.dropWhile pySpace := by
      unfold pyStripList
      rw [List.reverse_reverse]
    calc pyStripList (pyStripList l)
        = (((pyStripList l).dropWhile pySpace).reverse.dropWhile pySpace).reverse := rfl
      _ = ((pyStripList l).reverse.dropWhile pySpace).reverse := by rw [h1]
      _ = (((l.dropWhile pySpace).reverse.dropWhile pySpace).dropWhile pySpace).reverse := by
            rw [hrev]
      _ = ((l.dropWhile pySpace).reverse.dropWhile pySpace).reverse := by rw [dropWhile_self]
      _ = pyStripList l := rfl


lemma pyStripList_map_lower (l : List Char) :
    pyStripList (pyLowerList l) = pyLowerList (pyStripList l) := by
  unfold pyStripList pyLowerList
  have hfun : (pySpace ∘ pyLowerChar) = pySpace := funext pySpace_pyLowerChar
  rw [List.dropWhile_map, hfun, ← List.map_reverse, List.dropWhile_map, hfun,
    ← List.map_reverse]

lemma pyLowerList_idem (l : List Char) : pyLowerList (pyLowerList l) = pyLowerList l := by
  unfold pyLowerList
  rw [List.map_map]
  congr 1
  funext c
  exact pyLowerChar_idem c

lemma pyStripLower_idem (s : String) : pyStripLower (pyStripLower s) = pyStripLower s := by
  show (⟨pyLowerList (pyStripList (pyLowerList (pyStripList s.data)))⟩ : String) = _
  rw [pyStripList_map_lower, pyStripList_idem, pyLowerList_idem]
  rfl


/-! ## Unit normalization (`ai_functions._normalize_unit_name`,
`_convert_to_canonical_quantity`) -/

/-- the `_SPOON_MAP_TO_ML` table. -/
def _SPOON_MAP_TO_ML : List (String × ℚ) :=
  [("cucchiaino", 5), ("cucchiaino/i", 5), ("tsp", 5),
   ("cucchiaio", 15), ("cucchiaio/i", 15), ("tbsp", 15)]

/-- Python `u in _SPOON_MAP_TO_ML` / `_SPOON_MAP_TO_ML.get(u, 0)`. -/
def spoonMl (u : String) : Option ℚ :=
  (_SPOON_MAP_TO_ML.find? (fun kv => kv.1 == u)).map (fun kv => kv.2)

/-- the `_UNIT_ALIASES` table. -/
def _UNIT_ALIASES : List (String × List String) :=
  [("g", ["g", "grammo", "grammi"]),
   ("kg", ["kg", "chilogrammo", "chilogrammi"]),
   ("ml", ["ml", "millilitro", "millilitri"]),
   ("l", ["l", "litro", "litri"]),
   ("pz", ["pz", "pezzo", "pezzi", "unit", "unita"])]

/-- Embedding of `_normalize_unit_name`: strip/lowercase, spoon measures map
to `ml`, alias table lookup, unknown units pass through. -/
def _normalize_unit_name (unit : Option String) : String :=
  if pyStripLower (unit.getD "") = "" then ""
  else if (spoonMl (pyStripLower (unit.getD ""))).isSome then "ml"
  else
    match _UNIT_ALIASES.find?
        (fun ca => pyStripLower (unit.getD "") == ca.1 ||
          ca.2.contains (pyStripLower (unit.getD ""))) with
    | some ca => ca.1
    | none => pyStripLower (unit.getD "")

/-- Embedding of `_convert_to_canonical_quantity`: the (unreachable) spoon
safety branch, `kg → g` and `l → ml` by a factor of 1000, pass-through
otherwise. -/
def _convert_to_canonical_quantity (quantity : Option ℚ) (unit : Option String) : ℚ × String :=
  if _normalize_unit_name unit = "cucchiaio" ∨ _normalize_unit_name unit = "cucchiaino" ∨
      _normalize_unit_name unit = "tsp" ∨ _normalize_unit_name unit = "tbsp" then
    (quantity.getD 0 * ((spoonMl (_normalize_unit_name unit)).getD 0), "ml")
  else if _normalize_unit_name unit = "kg" then (quantity.getD 0 * 1000, "g")
  else if _normalize_unit_name unit = "l" then (quantity.getD 0 * 1000, "ml")
  else (quantity.getD 0, _normalize_unit_name unit)

lemma normalize_shape (u : Option String) :
    _normalize_unit_name u = "" ∨ _normalize_unit_name u = "ml" ∨
    (∃ ca ∈ _UNIT_ALIASES, _normalize_unit_name u = ca.1) ∨
    (_normalize_unit_name u = pyStripLower (u.getD "") ∧
      pyStripLower (u.getD "") ≠ "" ∧
      (spoonMl (pyStripLower (u.getD ""))).isSome = false ∧
      _UNIT_ALIASES.find? (fun ca => pyStripLower (u.getD "") == ca.1 ||
        ca.2.contains (pyStripLower (u.getD ""))) = none) := by
  unfold _normalize_unit_name
  split_ifs with h0 hsp
  · exact Or.inl rfl
  · exact Or.inr (Or.inl rfl)
  · cases hf : _UNIT_ALIASES.find?
        (fun ca => pyStripLower (u.getD "") == ca.1 ||
          ca.2.contains (pyStripLower (u.getD ""))) with
    | some ca =>
      refine Or.inr (Or.inr (Or.inl ⟨ca, List.mem_of_find?_eq_some hf, ?_⟩))
      simp only [hf]
    | none =>
      refine Or.inr (Or.inr (Or.inr ⟨rfl, h0, by simpa using hsp, rfl⟩))

lemma normalize_concrete_fixed (w : String)
    (hw : w = "" ∨ w = "ml" ∨ w = "g" ∨ w = "kg" ∨ w = "l" ∨ w = "pz") :
    _normalize_unit_name (some w) = w := by
  rcases hw with h | h | h | h | h | h <;> rw [h] <;> rfl

lemma normalize_fixed (u : Option String) :
    _normalize_unit_name (some (_normalize_unit_name u)) = _normalize_unit_name u := by
  rcases normalize_shape u with h | h | ⟨ca, hmem, h⟩ | ⟨heq, hne, hsp, hf⟩
  · rw [h]
    rfl
  · rw [h]
    rfl
  · rw [h]
    fin_cases hmem <;> rfl
  · rw [heq]
    unfold _normalize_unit_name
    simp only [Option.getD_some, pyStripLower_idem, hf]
    rw [if_neg hne, if_neg (by simp [hsp])]

lemma normalize_not_spoonkey (u : Option String) :
    (spoonMl (_normalize_unit_name u)).isSome = false := by
  rcases normalize_shape u with h | h | ⟨ca, hmem, h⟩ | ⟨heq, hne, hsp, hf⟩
  · rw [h]
    rfl
  · rw [h]
    rfl
  · rw [h]
    fin_cases hmem <;> rfl
  · rw [heq]
    exact hsp


/-- C6: converting a pair whose unit is already primary-canonical (`g`, `ml`,
`pz`) is the identity, and `_convert_to_canonical_quantity` is idempotent on
every input: re-converting its own output changes nothing. -/
theorem C6_convert_canonical_idempotent :
    (∀ (q : ℚ) (u : String), u = "g" ∨ u = "ml" ∨ u = "pz" →
      _convert_to_canonical_quantity (some q) (some u) = (q, u)) ∧
    (∀ (q : Option ℚ) (u : Option String),
      _convert_to_canonical_quantity (some (_convert_to_canonical_quantity q u).1)
          (some (_convert_to_canonical_quantity q u).2) =
        _convert_to_canonical_quantity q u) := by
  constructor
  · rintro q u (h | h | h) <;> subst h <;> rfl
  · intro q u
    by_cases h1 : _normalize_unit_name u = "cucchiaio" ∨ _normalize_unit_name u = "cucchiaino" ∨
        _normalize_unit_name u = "tsp" ∨ _normalize_unit_name u = "tbsp"
    · exfalso
      have hs := normalize_not_spoonkey u
      rcases h1 with h | h | h | h <;> rw [h] at hs <;> exact absurd hs (by decide)
    · by_cases h2 : _normalize_unit_name u = "kg"
      · have hc : _convert_to_canonical_quantity q u = (q.getD 0 * 1000, "g") := by
          unfold _convert_to_canonical_quantity
          rw [if_neg h1, if_pos h2]
        rw [hc]
        rfl
      · by_cases h3 : _normalize_unit_name u = "l"
        · have hc : _convert_to_canonical_quantity q u = (q.getD 0 * 1000, "ml") := by
            unfold _convert_to_canonical_quantity
            rw [if_neg h1, if_neg h2, if_pos h3]
          rw [hc]
          rfl
        · have hc : _convert_to_canonical_quantity q u = (q.getD 0, _normalize_unit_name u) := by
            unfold _convert_to_canonical_quantity
            rw [if_neg h1, if_neg h2, if_neg h3]
          rw [hc]
          unfold _convert_to_canonical_quantity
          simp only [normalize_fixed, Option.getD_some]
          rw [if_neg h1, if_neg h2, if_neg h3]

theorem C6_witness :
    (("g":String) = "g" ∨ ("g":String) = "ml" ∨ ("g":String) = "pz") ∧
    _convert_to_canonical_quantity (some 250) (some "g") = (250, "g") :=
  ⟨Or.inl rfl, C6_convert_canonical_idempotent.1 250 "g" (Or.inl rfl)⟩


/-! ## Recipes and serving scaling (`ai_functions._scale_recipe_servings`) -/

structure NutriPerServing where
  calories : ℚ
  protein : ℚ
  carbs : ℚ
  fat : ℚ
  fiber : ℚ
  deriving Repr, DecidableEq

structure RIngredient where
  item : Option String
  quantity : Option ℚ
  unit : Option String
  deriving Repr, DecidableEq

structure Recipe where
  name : String
  ingredients : List RIngredient
  instructions : List String
  prep_time : ℕ
  cooking_time : ℕ
  difficulty : String
  servings : Option ℤ
  nutritional_info : Option NutriPerServing
  dietary_tags : Option (List String)
  tips : Option (List String)
  deriving Repr, DecidableEq

/-- Python `recipe.get('servings') or 1` on an integer field (0 and missing
are falsy). -/
def pyOrOneInt : Option ℤ → ℤ
  | none => 1
  | some s => if s = 0 then 1 else s

/-- Embedding of `_scale_recipe_servings`: clamp servings to ≥ 1, early
return when target equals current, otherwise multiply each quantity by the
ratio and round to 2 decimals. -/
def _scale_recipe_servings (recipe : Recipe) (target_servings : ℤ) : Recipe :=
  if max 1 target_servings = max 1 (pyOrOneInt recipe.servings) then recipe
  else
    { recipe with
      ingredients := recipe.ingredients.map (fun ing =>
        { ing with quantity := some (pyRound2 ((ing.quantity.getD 0) *
            (((max 1 target_servings : ℤ) : ℚ) / ((max 1 (pyOrOneInt recipe.servings) : ℤ) : ℚ)))) })
      servings := some (max 1 target_servings) }

/-- Ideal unrounded scaling transform used to state the amended linearity
property of `_scale_recipe_servings` (same clamping, exact quantities). -/
def scale_recipe_exact (recipe : Recipe) (target_servings : ℤ) : Recipe :=
  { recipe with
    ingredients := recipe.ingredients.map (fun ing =>
      { ing with quantity := some ((ing.quantity.getD 0) *
          (((max 1 target_servings : ℤ) : ℚ) / ((max 1 (pyOrOneInt recipe.servings) : ℤ) : ℚ))) })
    servings := some (max 1 target_servings) }

lemma pyOrOneInt_some_max (n : ℤ) : pyOrOneInt (some (max 1 n)) = max 1 n := by
  simp only [pyOrOneInt]
  rw [if_neg (by omega)]

/-- composition law for the exact transform. -/
lemma scale_recipe_exact_comp (r : Recipe) (n m : ℤ) :
    scale_recipe_exact (scale_recipe_exact r n) m = scale_recipe_exact r m := by
  unfold scale_recipe_exact
  simp only [List.map_map, pyOrOneInt_some_max]
  congr 1
  apply List.map_congr_left
  intro ing _
  simp only [Function.comp_apply, Option.getD_some]
  congr 1
  have hn : ((max 1 n : ℤ) : ℚ) ≠ 0 := by
    have : (1:ℤ) ≤ max 1 n := le_max_left 1 n
    exact_mod_cast by omega
  have hs : ((max 1 (pyOrOneInt r.servings) : ℤ) : ℚ) ≠ 0 := by
    have : (1:ℤ) ≤ max 1 (pyOrOneInt r.servings) := le_max_left _ _
    exact_mod_cast by omega
  field_simp
  ring


lemma pyRound2_one_over_500 : pyRound2 (1/500 : ℚ) = 0 := by
  unfold pyRound2 pyRoundHalfEven
  rw [show ((1:ℚ)/500 * 100) = 1/5 by norm_num]
  have h : ⌊(1/5 : ℚ)⌋ = 0 := by
    rw [Int.floor_eq_iff]
    constructor <;> norm_num
  rw [h]
  norm_num

lemma pyRound2_zero : pyRound2 (0 : ℚ) = 0 := by
  unfold pyRound2 pyRoundHalfEven
  norm_num

lemma pyRound2_one : pyRound2 (1 : ℚ) = 1 := by
  unfold pyRound2 pyRoundHalfEven
  norm_num

/-- concrete one-ingredient recipe exhibiting rounding loss in scaling. -/
def rExampleScaling : Recipe :=
  { name := "x",
    ingredients := [{ item := some "a", quantity := some (1/1000), unit := some "g" }],
    instructions := [], prep_time := 0, cooking_time := 0, difficulty := "easy",
    servings := some 1, nutritional_info := none, dietary_tags := none, tips := none }

/-- C7 counterexample: scaling the example recipe from 1 to 2 servings rounds
the quantity 0.002 down to 0, so rescaling the result to 1000 servings yields
quantity 0, while scaling the original directly to 1000 servings yields 1 — a
difference of a whole unit, beyond any rounding tolerance. -/
theorem C7_rounding_breaks_linearity :
    (_scale_recipe_servings (_scale_recipe_servings rExampleScaling 2) 1000).ingredients.map
        (fun ing => ing.quantity) = [some 0] ∧
    (_scale_recipe_servings rExampleScaling 1000).ingredients.map
        (fun ing => ing.quantity) = [some 1] ∧
    some (0:ℚ) ≠ some (1:ℚ) := by
  have h2 : _scale_recipe_servings rExampleScaling 2 =
      { rExampleScaling with
        ingredients := [{ item := some "a", quantity := some 0, unit := some "g" }],
        servings := some 2 } := by
    unfold _scale_recipe_servings rExampleScaling
    rw [if_neg (by decide)]
    simp only [List.map]
    rw [show pyOrOneInt (some 1) = 1 from rfl]
    rw [show (max 1 (1:ℤ)) = 1 from rfl, show (max 1 (2:ℤ)) = 2 from rfl]
    rw [show (((some ((1:ℚ)/1000)).getD 0) * (((2:ℤ):ℚ) / ((1:ℤ):ℚ))) = 1/500 by norm_num]
    rw [pyRound2_one_over_500]
  refine ⟨?_, ?_, by simp⟩
  · rw [h2]
    unfold _scale_recipe_servings
    rw [if_neg (by decide)]
    simp only [List.map, List.map_cons, List.map_nil]
    rw [show pyOrOneInt (some 2) = 2 from rfl]
    rw [show (max 1 (2:ℤ)) = 2 from rfl, show (max 1 (1000:ℤ)) = 1000 from rfl]
    rw [show (((some ((0:ℚ))).getD 0) * (((1000:ℤ):ℚ) / ((2:ℤ):ℚ))) = 0 by norm_num]
    rw [pyRound2_zero]
  · unfold _scale_recipe_servings rExampleScaling
    rw [if_neg (by decide)]
    simp only [List.map, List.map_cons, List.map_nil]
    rw [show pyOrOneInt (some 1) = 1 from rfl]
    rw [show (max 1 (1:ℤ)) = 1 from rfl, show (max 1 (1000:ℤ)) = 1000 from rfl]
    rw [show (((some ((1:ℚ)/1000)).getD 0) * (((1000:ℤ):ℚ) / ((1:ℤ):ℚ))) = 1 by norm_num]
    rw [pyRound2_one]


/-- C7 (amended): scaling clamps both serving counts to ≥ 1 and is the
identity when they coincide; otherwise each quantity is multiplied by the
exact ratio and then rounded to 2 decimals (pointwise rounding of the exact
transform); the exact (unrounded) transform is linear — scaling to `n` then
`m` equals scaling directly to `m` — while the rounded composition can drift
arbitrarily far (see the counterexample). -/
theorem C7_amended_scaling :
    (∀ (r : Recipe) (t : ℤ),
      (max 1 t = max 1 (pyOrOneInt r.servings) → _scale_recipe_servings r t = r) ∧
      (max 1 t ≠ max 1 (pyOrOneInt r.servings) →
        _scale_recipe_servings r t =
          { scale_recipe_exact r t with
            ingredients := (scale_recipe_exact r t).ingredients.map (fun ing =>
              { ing with quantity := some (pyRound2 (ing.quantity.getD 0)) }) })) ∧
    (∀ (r : Recipe) (n m : ℤ),
      scale_recipe_exact (scale_recipe_exact r n) m = scale_recipe_exact r m) := by
  refine ⟨?_, scale_recipe_exact_comp⟩
  intro r t
  constructor
  · intro h
    unfold _scale_recipe_servings
    rw [if_pos h]
  · intro h
    unfold _scale_recipe_servings scale_recipe_exact
    rw [if_neg h]
    simp only [List.map_map]
    rfl

theorem C7_amended_witness :
    max 1 (3:ℤ) ≠ max 1 (pyOrOneInt rExampleScaling.servings) ∧
    _scale_recipe_servings rExampleScaling 3 =
      { scale_recipe_exact rExampleScaling 3 with
        ingredients := (scale_recipe_exact rExampleScaling 3).ingredients.map (fun ing =>
          { ing with quantity := some (pyRound2 (ing.quantity.getD 0)) }) } :=
  ⟨by decide, (C7_amended_scaling.1 rExampleScaling 3).2 (by decide)⟩


/-! ## Pantry unit remapping (`ai_functions._remap_recipe_units_to_pantry`) -/

/-- the `name_to_unit` dictionary built from the user's non-wasted products:
for each product with a non-empty lowercased name and a non-empty unit the
normalized unit is stored, later assignments overwriting earlier ones. -/
def pantry_unit_for (products : List Product) (key : String) : Option String :=
  (products.reverse.find? (fun p =>
      pyStripLower p.name == key && decide (pyStripLower p.name ≠ "") &&
        decide (p.unit ≠ ""))).map
    (fun p => _normalize_unit_name (some p.unit))

/-- the per-ingredient body of the `_remap_recipe_units_to_pantry` loop. -/
def remap_ingredient (products : List Product) (ing : RIngredient) : RIngredient :=
  if pyStripLower (ing.item.getD "") = "" then ing
  else
    match pantry_unit_for products (pyStripLower (ing.item.getD "")) with
    | none => ing
    | some pantry_unit =>
      if pantry_unit = "" then ing
      else if pantry_unit = (_convert_to_canonical_quantity ing.quantity ing.unit).2 then
        { ing with
          quantity := some (pyRound2 (_convert_to_canonical_quantity ing.quantity ing.unit).1)
          unit := some pantry_unit }
      else if pantry_unit = "g" ∧ (_convert_to_canonical_quantity ing.quantity ing.unit).2 = "kg" then
        { ing with
          quantity := some (pyRound2 ((_convert_to_canonical_quantity ing.quantity ing.unit).1 * 1000))
          unit := some "g" }
      else if pantry_unit = "ml" ∧ (_convert_to_canonical_quantity ing.quantity ing.unit).2 = "l" then
        { ing with
          quantity := some (pyRound2 ((_convert_to_canonical_quantity ing.quantity ing.unit).1 * 1000))
          unit := some "ml" }
      else
        { ing with
          quantity := some (pyRound2 (_convert_to_canonical_quantity ing.quantity ing.unit).1)
          unit := some (_convert_to_canonical_quantity ing.quantity ing.unit).2 }

/-- Embedding of `_remap_recipe_units_to_pantry` over the already-fetched
non-wasted product list. -/
def _remap_recipe_units_to_pantry (recipes : List Recipe) (products : List Product) :
    List Recipe :=
  recipes.map (fun r => { r with ingredients := r.ingredients.map (remap_ingredient products) })

lemma conv_snd_ne_secondary (q : Option ℚ) (u : Option String) :
    (_convert_to_canonical_quantity q u).2 ≠ "kg" ∧
    (_convert_to_canonical_quantity q u).2 ≠ "l" := by
  unfold _convert_to_canonical_quantity
  split_ifs with h1 h2 h3
  · exact ⟨by simp, by simp⟩
  · exact ⟨by simp, by simp⟩
  · exact ⟨by simp, by simp⟩
  · exact ⟨h2, h3⟩

lemma pyRound2_intCast (z : ℤ) : pyRound2 ((z:ℚ)) = (z:ℚ) := by
  unfold pyRound2 pyRoundHalfEven
  have h1 : ((z:ℚ) * 100) = (((z * 100 : ℤ)):ℚ) := by push_cast; ring
  rw [h1, Int.floor_intCast]
  rw [if_pos (by norm_num)]
  push_cast
  field_simp

/-- shared fact: a matched ingredient is always rewritten to its canonical
quantity/unit, whatever the pantry unit is. -/
lemma remap_ingredient_matched (products : List Product) (ing : RIngredient) (pu : String)
    (hne : pyStripLower (ing.item.getD "") ≠ "")
    (hfind : pantry_unit_for products (pyStripLower (ing.item.getD "")) = some pu)
    (hpu : pu ≠ "") :
    remap_ingredient products ing =
      { ing with
        quantity := some (pyRound2 (_convert_to_canonical_quantity ing.quantity ing.unit).1)
        unit := some (_convert_to_canonical_quantity ing.quantity ing.unit).2 } := by
  have hsec := conv_snd_ne_secondary ing.quantity ing.unit
  unfold remap_ingredient
  rw [if_neg hne]
  simp only [hfind]
  rw [if_neg hpu]
  by_cases h1 : pu = (_convert_to_canonical_quantity ing.quantity ing.unit).2
  · rw [if_pos h1, h1]
  · rw [if_neg h1, if_neg (fun hc => hsec.1 hc.2), if_neg (fun hc => hsec.2 hc.2)]

/-- C9 (amended): for an ingredient whose lowercased name matches a pantry
product, the remap always rewrites the ingredient to its canonical
quantity/unit (`kg → g`, `l → ml`, multiplying by 1000); the resulting unit
equals the pantry unit exactly when the pantry's normalized unit coincides
with that canonical unit, and the canonical unit is never the secondary `kg`
or `l`, so the reverse conversions dividing by 1000 (pantry `kg` with
ingredient `g`, pantry `l` with ingredient `ml`) never happen. -/
theorem C9_amended_remap_canonicalizes :
    ∀ (products : List Product) (ing : RIngredient) (pu : String),
      pyStripLower (ing.item.getD "") ≠ "" →
      pantry_unit_for products (pyStripLower (ing.item.getD "")) = some pu →
      pu ≠ "" →
      remap_ingredient products ing =
        { ing with
          quantity := some (pyRound2 (_convert_to_canonical_quantity ing.quantity ing.unit).1)
          unit := some (_convert_to_canonical_quantity ing.quantity ing.unit).2 } ∧
      ((remap_ingredient products ing).unit = some pu ↔
        pu = (_convert_to_canonical_quantity ing.quantity ing.unit).2) ∧
      (_convert_to_canonical_quantity ing.quantity ing.unit).2 ≠ "kg" ∧
      (_convert_to_canonical_quantity ing.quantity ing.unit).2 ≠ "l" := by
  intro products ing pu hne hfind hpu
  have hsec := conv_snd_ne_secondary ing.quantity ing.unit
  have hmain := remap_ingredient_matched products ing pu hne hfind hpu
  refine ⟨hmain, ?_, hsec.1, hsec.2⟩
  rw [hmain]
  constructor
  · intro h
    have h2 : some (_convert_to_canonical_quantity ing.quantity ing.unit).2 = some pu := h
    exact (Option.some.inj h2).symm
  · intro h
    show some (_convert_to_canonical_quantity ing.quantity ing.unit).2 = some pu
    rw [h]

theorem C9_amended_witness :
    (pyStripLower ((({ item := some "Farina", quantity := some 500, unit := some "g" } :
        RIngredient)).item.getD "") ≠ "" ∧
      ("kg" : String) ≠ "") ∧
    remap_ingredient
        [{ user_id := 1, name := "Farina", quantity := 1, unit := "kg", category := "Altro",
           min_quantity := 0, wasted := false }]
        { item := some "Farina", quantity := some 500, unit := some "g" } =
      { item := some "Farina",
        quantity := some (pyRound2 (_convert_to_canonical_quantity (some 500) (some "g")).1),
        unit := some (_convert_to_canonical_quantity (some 500) (some "g")).2 } :=
  ⟨⟨by decide, by decide⟩,
    (C9_amended_remap_canonicalizes
      [{ user_id := 1, name := "Farina", quantity := 1, unit := "kg", category := "Altro",
         min_quantity := 0, wasted := false }]
      { item := some "Farina", quantity := some 500, unit := some "g" }
      "kg" (by decide) rfl (by decide)).1⟩

/-- C9 counterexample: the pantry holds Farina in `kg` while the recipe uses
`g`; the pair is in g↔kg, yet the ingredient is left at `(500, "g")` — the
division by 1000 to the pantry unit `kg` the claim requires never happens. -/
theorem C9_pantry_kg_ingredient_g_counterexample :
    pantry_unit_for
        [{ user_id := 1, name := "Farina", quantity := 1, unit := "kg", category := "Altro",
           min_quantity := 0, wasted := false }] "farina" = some "kg" ∧
    remap_ingredient
        [{ user_id := 1, name := "Farina", quantity := 1, unit := "kg", category := "Altro",
           min_quantity := 0, wasted := false }]
        { item := some "Farina", quantity := some 500, unit := some "g" } =
      { item := some "Farina", quantity := some 500, unit := some "g" } ∧
    ¬ (remap_ingredient
        [{ user_id := 1, name := "Farina", quantity := 1, unit := "kg", category := "Altro",
           min_quantity := 0, wasted := false }]
        { item := some "Farina", quantity := some 500, unit := some "g" }).unit = some "kg" := by
  have h500 : pyRound2 (500:ℚ) = 500 := by
    rw [show (500:ℚ) = ((500:ℤ):ℚ) by norm_num, pyRound2_intCast]
  have hconv : _convert_to_canonical_quantity (some (500:ℚ)) (some "g") = (500, "g") := rfl
  have hrm := remap_ingredient_matched
    [{ user_id := 1, name := "Farina", quantity := 1, unit := "kg", category := "Altro",
       min_quantity := 0, wasted := false }]
    { item := some "Farina", quantity := some 500, unit := some "g" }
    "kg" (by decide) rfl (by decide)
  rw [hconv] at hrm
  rw [h500] at hrm
  refine ⟨rfl, hrm, ?_⟩
  rw [hrm]
  simp


/-! ## Recipe preference filtering (`ai_functions._recipe_violates_preferences`) -/

/-- Embedding of `_normalize_token`: falsy values map to the empty string,
anything else is stripped and lowercased. -/
def _normalize_token (value : Option String) : String :=
  match value with
  | none => ""
  | some s => if s = "" then "" else pyStripLower s

/-- Python list/string prefix test used to define substring containment. -/
def leadsList : List Char → List Char → Bool
  | [], _ => true
  | _ :: _, [] => false
  | a :: as, b :: bs => a == b && leadsList as bs

/-- Python's substring operator `needle in hay` on character lists. -/
def memSub (needle : List Char) : List Char → Bool
  | [] => needle.isEmpty
  | c :: rest => leadsList needle (c :: rest) || memSub needle rest

lemma leadsList_iff (n : List Char) : ∀ h, leadsList n h = true ↔ ∃ post, h = n ++ post := by
  induction n with
  | nil =>
    intro h
    simp [leadsList]
  | cons a as ih =>
    intro h
    cases h with
    | nil =>
      simp [leadsList]
    | cons b bs =>
      rw [show leadsList (a :: as) (b :: bs) = (a == b && leadsList as bs) from rfl]
      rw [Bool.and_eq_true, beq_iff_eq, ih]
      constructor
      · rintro ⟨rfl, post, rfl⟩
        exact ⟨post, rfl⟩
      · rintro ⟨post, hpost⟩
        injection hpost with h1 h2
        exact ⟨h1.symm, post, h2⟩

lemma memSub_iff (n : List Char) : ∀ h, memSub n h = true ↔ ∃ pre post, h = pre ++ n ++ post := by
  intro h
  induction h with
  | nil =>
    simp only [memSub, List.isEmpty_iff]
    constructor
    · rintro rfl
      exact ⟨[], [], rfl⟩
    · rintro ⟨pre, post, hp⟩
      cases pre <;> cases n <;> simp_all
  | cons c rest ih =>
    rw [show memSub n (c :: rest) = (leadsList n (c :: rest) || memSub n rest) from rfl]
    rw [Bool.or_eq_true, leadsList_iff, ih]
    constructor
    · rintro (⟨post, hp⟩ | ⟨pre, post, hp⟩)
      · exact ⟨[], post, by simpa using hp⟩
      · exact ⟨c :: pre, post, by simp [hp]⟩
    · rintro ⟨pre, post, hp⟩
      cases pre with
      | nil =>
        left
        exact ⟨post, by simpa using hp⟩
      | cons x xs =>
        right
        injection hp with h1 h2
        exact ⟨xs, post, h2⟩

/-- the allergen part of `_recipe_violates_preferences`: any declared allergen
occurring as a substring of a normalized ingredient name. -/
def allergy_hit (recipe : Recipe) (allergies : List String) : Bool :=
  !allergies.isEmpty &&
    recipe.ingredients.any (fun ing =>
      if _normalize_token ing.item = "" then false
      else allergies.any (fun a =>
        !(a == "") && memSub a.data (_normalize_token ing.item).data))

/-- the dietary-restriction part of `_recipe_violates_preferences`: with a
non-empty normalized tag set, any declared restriction missing from the tags
rejects; with no tags the check never rejects. -/
def restriction_missing (recipe : Recipe) (restrictions : List String) : Bool :=
  !restrictions.isEmpty &&
    (!((recipe.dietary_tags.getD []).map (fun t => _normalize_token (some t))).isEmpty &&
      restrictions.any (fun rr =>
        !(((recipe.dietary_tags.getD []).map (fun t => _normalize_token (some t))).contains rr)))

/-- Embedding of `_recipe_violates_preferences`. -/
def _recipe_violates_preferences (recipe : Recipe) (restrictions allergies : List String) :
    Bool :=
  allergy_hit recipe allergies || restriction_missing recipe restrictions

/-- the filtering stage of `suggest_recipes`: applied only when the user has
restrictions or allergies. -/
def filter_recipes_by_prefs (recipes : List Recipe) (restrictions allergies : List String) :
    List Recipe :=
  if restrictions ≠ [] ∨ allergies ≠ [] then
    recipes.filter (fun r => !(_recipe_violates_preferences r restrictions allergies))
  else recipes


/-- C3: any non-empty declared allergen that is a (case-insensitive,
normalized) substring of some ingredient name makes
`_recipe_violates_preferences` classify the recipe as violating, and the
recipe is then dropped by the preference-filtering stage of
`suggest_recipes`. -/
theorem C3_allergen_substring_rejects :
    ∀ (recipe : Recipe) (restrictions allergies : List String) (a : String) (ing : RIngredient),
      a ∈ allergies → a ≠ "" →
      ing ∈ recipe.ingredients →
      (∃ pre post, (_normalize_token ing.item).data = pre ++ a.data ++ post) →
      _recipe_violates_preferences recipe restrictions allergies = true ∧
      ∀ recipes : List Recipe, recipe ∉ filter_recipes_by_prefs recipes restrictions allergies := by
  intro recipe restrictions allergies a ing ha hane hing hsub
  have hmem : memSub a.data (_normalize_token ing.item).data = true :=
    (memSub_iff _ _).mpr hsub
  have hitem : _normalize_token ing.item ≠ "" := by
    intro hz
    rw [hz] at hsub
    obtain ⟨pre, post, hp⟩ := hsub
    have hadata : a.data = [] := by
      cases pre <;> simp_all
    apply hane
    cases a
    simp_all
  have hhit : allergy_hit recipe allergies = true := by
    unfold allergy_hit
    rw [Bool.and_eq_true]
    constructor
    · simp only [Bool.not_eq_true']
      cases allergies with
      | nil => cases ha
      | cons x xs => rfl
    · rw [List.any_eq_true]
      refine ⟨ing, hing, ?_⟩
      rw [if_neg hitem, List.any_eq_true]
      refine ⟨a, ha, ?_⟩
      rw [Bool.and_eq_true]
      exact ⟨by simpa using hane, hmem⟩
  have hv : _recipe_violates_preferences recipe restrictions allergies = true := by
    unfold _recipe_violates_preferences
    rw [hhit]
    rfl
  refine ⟨hv, ?_⟩
  intro recipes hmemf
  unfold filter_recipes_by_prefs at hmemf
  rw [if_pos (Or.inr (fun h => by rw [h] at ha; cases ha))] at hmemf
  have hpred := (List.mem_filter.mp hmemf).2
  rw [hv] at hpred
  cases hpred

/-- concrete recipe with a milk ingredient used by the C3 witness. -/
def rExampleLatte : Recipe :=
  { name := "Budino",
    ingredients := [{ item := some "Latte intero", quantity := some 200, unit := some "ml" }],
    instructions := [], prep_time := 0, cooking_time := 0, difficulty := "easy",
    servings := some 2, nutritional_info := none, dietary_tags := some [], tips := none }

theorem C3_witness :
    (("latte":String) ∈ (["latte"] : List String) ∧ ("latte":String) ≠ "" ∧
      ({ item := some "Latte intero", quantity := some 200, unit := some "ml" } : RIngredient) ∈
        rExampleLatte.ingredients ∧
      (∃ pre post,
        (_normalize_token (some "Latte intero")).data = pre ++ ("latte":String).data ++ post)) ∧
    _recipe_violates_preferences rExampleLatte [] ["latte"] = true ∧
    rExampleLatte ∉ filter_recipes_by_prefs [rExampleLatte] [] ["latte"] := by
  have hsub : ∃ pre post,
      (_normalize_token (some "Latte intero")).data = pre ++ ("latte":String).data ++ post :=
    ⟨[], " intero".data, rfl⟩
  have hmemi : ({ item := some "Latte intero", quantity := some 200, unit := some "ml" } :
      RIngredient) ∈ rExampleLatte.ingredients := List.mem_singleton.mpr rfl
  have h := C3_allergen_substring_rejects rExampleLatte [] ["latte"] "latte"
    { item := some "Latte intero", quantity := some 200, unit := some "ml" }
    (List.mem_singleton.mpr rfl) (by decide) hmemi hsub
  exact ⟨⟨List.mem_singleton.mpr rfl, by decide, hmemi, hsub⟩, h.1, h.2 [rExampleLatte]⟩

/-- C4: with declared restrictions, a recipe carrying a non-empty dietary-tag
list that misses some restriction is rejected, while a recipe whose
dietary tags are absent or empty is never rejected by the restriction check
(the result then equals the pure allergen check). -/
theorem C4_restriction_tag_asymmetry :
    ∀ (recipe : Recipe) (restrictions allergies : List String),
      (∀ ts : List String, recipe.dietary_tags = some ts → ts ≠ [] →
        (∃ rr ∈ restrictions, rr ∉ ts.map (fun t => _normalize_token (some t))) →
        _recipe_violates_preferences recipe restrictions allergies = true) ∧
      ((recipe.dietary_tags = none ∨ recipe.dietary_tags = some []) →
        _recipe_violates_preferences recipe restrictions allergies =
          _recipe_violates_preferences recipe [] allergies) := by
  intro recipe restrictions allergies
  constructor
  · rintro ts hts htne ⟨rr, hrr, hmiss⟩
    unfold _recipe_violates_preferences
    rw [Bool.or_eq_true]
    right
    unfold restriction_missing
    rw [hts]
    rw [Bool.and_eq_true, Bool.and_eq_true]
    refine ⟨?_, ?_, ?_⟩
    · simp only [Bool.not_eq_true']
      cases restrictions with
      | nil => cases hrr
      | cons x xs => rfl
    · simp only [Bool.not_eq_true']
      cases ts with
      | nil => exact absurd rfl htne
      | cons x xs => rfl
    · rw [List.any_eq_true]
      exact ⟨rr, hrr, by simp [hmiss]⟩
  · intro h
    have htags : (recipe.dietary_tags.getD []).map (fun t => _normalize_token (some t)) = [] := by
      rcases h with h | h <;> rw [h] <;> rfl
    unfold _recipe_violates_preferences restriction_missing
    rw [htags]
    simp

theorem C4_witness :
    (rExampleLatte.dietary_tags = some [] ∧
      _recipe_violates_preferences rExampleLatte ["vegan"] [] =
        _recipe_violates_preferences rExampleLatte [] []) ∧
    (rExampleScaling.dietary_tags = none ∧
      _recipe_violates_preferences rExampleScaling ["vegan"] ["latte"] =
        _recipe_violates_preferences rExampleScaling [] ["latte"]) :=
  ⟨⟨rfl, (C4_restriction_tag_asymmetry rExampleLatte ["vegan"] []).2 (Or.inr rfl)⟩,
   ⟨rfl, (C4_restriction_tag_asymmetry rExampleScaling ["vegan"] ["latte"]).2 (Or.inl rfl)⟩⟩


/-! ## AI recipe call and fallback (`ai_functions.ai_generate_recipe_suggestions`,
`suggest_recipes`, `_generate_fallback_recipes`)

The HTTP transport and the two `json.loads` calls are oracles of the
embedding: the network outcome is a parameter and `jsonParse` stands for
`json.loads` on the assistant text, returning the shape the code inspects.
Every control-flow branch of the source functions is embedded. -/

def pyStrip (s : String) : String := ⟨pyStripList s.data⟩

def pyStartsWith (s pre : String) : Bool := leadsList pre.data s.data

def pyEndsWith (s suf : String) : Bool := leadsList suf.data.reverse s.data.reverse

def pyDropChars (s : String) (n : ℕ) : String := ⟨s.data.drop n⟩

def pyDropRight (s : String) (n : ℕ) : String := ⟨s.data.take (s.data.length - n)⟩

/-- the markdown code-fence stripping performed on the assistant text. -/
def strip_code_fences (content : String) : String :=
  pyStrip
    ((fun c2 => if pyEndsWith c2 "```" then pyDropRight c2 3 else c2)
      ((fun c1 => if pyStartsWith c1 "```" then pyDropChars c1 3 else c1)
        ((fun c0 => if pyStartsWith c0 "```json" then pyDropChars c0 7 else c0)
          (pyStrip content))))

/-- Python `content.find(ch)`. -/
def pyFindChar (s : String) (ch : Char) : Option ℕ :=
  s.data.findIdx? (fun c => c == ch)

/-- Python `content.rfind(ch)`. -/
def pyRfindChar (s : String) (ch : Char) : Option ℕ :=
  (s.data.reverse.findIdx? (fun c => c == ch)).map (fun i => s.data.length - 1 - i)

/-- Python `content[start:stop]`. -/
def pySlice (s : String) (start stop : ℕ) : String :=
  ⟨(s.data.take stop).drop start⟩

/-- top-level JSON shapes `ai_generate_recipe_suggestions` distinguishes. -/
inductive ParsedShape where
  | recipesObj (rs : List Recipe)
  | arr (rs : List Recipe)
  | otherDict
  | otherVal
  deriving Repr, DecidableEq

/-- outcome of `json.loads` on a candidate string. -/
inductive ParseOutcome where
  | fail
  | ok (v : ParsedShape)
  deriving Repr, DecidableEq

/-- body of a 200 response: either `response.json()` raises, or the
assistant content string was extracted (defaulting to `""`). -/
inductive ResponseBody where
  | invalidJson
  | payload (content : String)
  deriving Repr, DecidableEq

/-- outcome of the `requests.post` call. -/
inductive NetOutcome where
  | timeout
  | requestError
  | response (status : ℕ) (body : ResponseBody)
  deriving Repr, DecidableEq

/-- the parse-or-repair sequence: direct `json.loads`, then retry on the
outermost brace span, re-raising (hence failing) otherwise. -/
def extract_recipes_payload (content : String) (jsonParse : String → ParseOutcome) :
    ParseOutcome :=
  match jsonParse content with
  | .ok v => .ok v
  | .fail =>
    match pyFindChar content '\x7b', pyRfindChar content '\x7d' with
    | some start, some stop =>
      if start < stop then jsonParse (pySlice content start (stop + 1))
      else .fail
    | _, _ => .fail

/-- Embedding of `ai_generate_recipe_suggestions`: every guard of the source
(missing key, empty ingredients, timeout/request error, non-200 status,
unparseable response object, empty content, unparseable content, shape
dispatch) in source order. -/
def ai_generate_recipe_suggestions (api_key : Option String)
    (ingredients : List (String × ℚ × String)) (net : NetOutcome)
    (jsonParse : String → ParseOutcome) : List Recipe :=
  if api_key.getD "" = "" then []
  else if ingredients = [] then []
  else
    match net with
    | .timeout => []
    | .requestError => []
    | .response status body =>
      if status ≠ 200 then []
      else
        match body with
        | .invalidJson => []
        | .payload content =>
          if content = "" then []
          else
            match extract_recipes_payload (strip_code_fences content) jsonParse with
            | .fail => []
            | .ok (.recipesObj rs) => rs
            | .ok (.arr rs) => rs
            | .ok .otherDict => []
            | .ok .otherVal => []

/-- the `per_serving` block of `_estimate_nutrition_fallback`. -/
def fallback_nutrition : NutriPerServing :=
  { calories := 350, protein := 20, carbs := 45, fat := 12, fiber := 8 }

/-- Embedding of `_generate_fallback_recipes`: one template recipe per
product, at most `min(max_recipes, len(products), 3)`, each consuming up to
three consecutive products. -/
def _generate_fallback_recipes (products : List Product) (max_recipes : ℕ) : List Recipe :=
  (List.range (min max_recipes (min products.length 3))).map (fun i =>
    { name := "Ricetta con " ++ ((products.drop i).head?.map Product.name).getD ""
      ingredients := ((products.drop i).take 3).map (fun p =>
        { item := some p.name, quantity := some p.quantity, unit := some p.unit })
      instructions := ["Prepara gli ingredienti", "Combina secondo preferenza",
        "Cuoci a temperatura media", "Servi caldo"]
      prep_time := 15
      cooking_time := 30
      difficulty := "easy"
      servings := some 2
      nutritional_info := some fallback_nutrition
      dietary_tags := some []
      tips := some ["Ricetta generata automaticamente"] })

/-- the per-recipe default enrichment loop of `suggest_recipes`. -/
def enrich_recipe_defaults (r : Recipe) : Recipe :=
  { r with
    nutritional_info := some (r.nutritional_info.getD fallback_nutrition)
    tips := some (r.tips.getD ["Segui le istruzioni con attenzione"])
    dietary_tags := some (r.dietary_tags.getD []) }

/-- Embedding of `_normalize_recipe_units`. -/
def _normalize_recipe_units (r : Recipe) : Recipe :=
  { r with ingredients := r.ingredients.map (fun ing =>
      { ing with
        quantity := some (pyRound2 (_convert_to_canonical_quantity ing.quantity ing.unit).1)
        unit := some (_convert_to_canonical_quantity ing.quantity ing.unit).2 }) }

/-- Embedding of `suggest_recipes` over the user's non-wasted products: AI
call, fallback on an empty result, preference filtering, enrichment, optional
serving scaling, unit normalization, pantry remap. -/
def suggest_recipes (user_products : List Product) (api_key : Option String)
    (net : NetOutcome) (jsonParse : String → ParseOutcome)
    (restrictions allergies : List String) (servings : Option ℤ) (max_recipes : ℕ) :
    List Recipe :=
  if user_products = [] then []
  else if ai_generate_recipe_suggestions api_key
      (user_products.map (fun p => (p.name, p.quantity, p.unit))) net jsonParse = [] then
    _generate_fallback_recipes (user_products.take 5) max_recipes
  else
    _remap_recipe_units_to_pantry
      ((filter_recipes_by_prefs
          (ai_generate_recipe_suggestions api_key
            (user_products.map (fun p => (p.name, p.quantity, p.unit))) net jsonParse)
          restrictions allergies).map
        (fun r => _normalize_recipe_units
          (match servings with
           | none => enrich_recipe_defaults r
           | some t => _scale_recipe_servings (enrich_recipe_defaults r) t)))
      user_products

/-- the failure modes of the upstream AI call enumerated by the claim (plus
the further defensive guards of the source). -/
def upstream_failed (api_key : Option String) (net : NetOutcome)
    (jsonParse : String → ParseOutcome) : Prop :=
  api_key.getD "" = "" ∨ net = .timeout ∨ net = .requestError ∨
  (∃ st body, net = .response st body ∧ st ≠ 200) ∨
  (∃ st, net = .response st .invalidJson) ∨
  (∃ st, net = .response st (.payload "")) ∨
  (∃ st content, net = .response st (.payload content) ∧
    extract_recipes_payload (strip_code_fences content) jsonParse = .fail)

lemma ai_generate_eq_nil_of_failure (api_key : Option String)
    (ingredients : List (String × ℚ × String)) (net : NetOutcome)
    (jsonParse : String → ParseOutcome)
    (h : upstream_failed api_key net jsonParse) :
    ai_generate_recipe_suggestions api_key ingredients net jsonParse = [] := by
  unfold ai_generate_recipe_suggestions
  by_cases hk : api_key.getD "" = ""
  · rw [if_pos hk]
  · rw [if_neg hk]
    by_cases hi : ingredients = []
    · rw [if_pos hi]
    · rw [if_neg hi]
      rcases h with h | h | h | ⟨st, body, hn, hst⟩ | ⟨st, hn⟩ | ⟨st, hn⟩ | ⟨st, content, hn, hp⟩
      · exact absurd h hk
      · rw [h]
      · rw [h]
      · simp only [hn]
        rw [if_pos hst]
      · simp only [hn]
        by_cases hst : st ≠ 200
        · rw [if_pos hst]
        · rw [if_neg hst]
      · simp only [hn]
        by_cases hst : st ≠ 200
        · rw [if_pos hst]
        · rw [if_neg hst]
          simp
      · simp only [hn]
        by_cases hst : st ≠ 200
        · rw [if_pos hst]
        · rw [if_neg hst]
          by_cases hc : content = ""
          · rw [if_pos hc]
          · rw [if_neg hc, hp]

lemma fallback_recipes_ne_nil (products : List Product) (max_recipes : ℕ)
    (hp : products ≠ []) (hm : 1 ≤ max_recipes) :
    _generate_fallback_recipes products max_recipes ≠ [] := by
  unfold _generate_fallback_recipes
  intro h
  rw [List.map_eq_nil_iff, List.range_eq_nil] at h
  have hl : 1 ≤ products.length := by
    cases products with
    | nil => exact absurd rfl hp
    | cons a t => simp
  omega

/-- C2: whenever the upstream AI recipe call fails in any of the enumerated
ways (missing API key, timeout or transport error, non-200 status,
unparseable response object, empty or unparseable assistant content),
`suggest_recipes` on a non-empty pantry returns exactly the local fallback
recipes, a non-empty list; the embedding is a total function, so no
exception can propagate. -/
theorem C2_failure_degrades_to_fallback :
    ∀ (user_products : List Product) (api_key : Option String) (net : NetOutcome)
      (jsonParse : String → ParseOutcome) (restrictions allergies : List String)
      (servings : Option ℤ) (max_recipes : ℕ),
      upstream_failed api_key net jsonParse →
      user_products ≠ [] → 1 ≤ max_recipes →
      suggest_recipes user_products api_key net jsonParse restrictions allergies servings
          max_recipes =
        _generate_fallback_recipes (user_products.take 5) max_recipes ∧
      _generate_fallback_recipes (user_products.take 5) max_recipes ≠ [] := by
  intro user_products api_key net jsonParse restrictions allergies servings max_recipes
    hfail hp hm
  have hnil := ai_generate_eq_nil_of_failure api_key
    (user_products.map (fun p => (p.name, p.quantity, p.unit))) net jsonParse hfail
  constructor
  · unfold suggest_recipes
    rw [if_neg hp, if_pos hnil]
  · apply fallback_recipes_ne_nil
    · cases user_products with
      | nil => exact absurd rfl hp
      | cons a t => simp
    · exact hm

theorem C2_witness :
    (upstream_failed (some "key") (.response 500 (.payload "oops")) (fun _ => .fail) ∧
      ([{ user_id := 1, name := "Pasta", quantity := 500, unit := "g", category := "Altro",
          min_quantity := 0, wasted := false }] : List Product) ≠ [] ∧ 1 ≤ 5) ∧
    (suggest_recipes
        [{ user_id := 1, name := "Pasta", quantity := 500, unit := "g", category := "Altro",
           min_quantity := 0, wasted := false }]
        (some "key") (.response 500 (.payload "oops")) (fun _ => .fail) [] [] none 5 =
      _generate_fallback_recipes
        ([{ user_id := 1, name := "Pasta", quantity := 500, unit := "g", category := "Altro",
            min_quantity := 0, wasted := false }].take 5) 5 ∧
      _generate_fallback_recipes
        ([{ user_id := 1, name := "Pasta", quantity := 500, unit := "g", category := "Altro",
            min_quantity := 0, wasted := false }].take 5) 5 ≠ []) := by
  have hfail : upstream_failed (some "key") (.response 500 (.payload "oops"))
      (fun _ => .fail) :=
    Or.inr (Or.inr (Or.inr (Or.inl ⟨500, .payload "oops", rfl, by decide⟩)))
  exact ⟨⟨hfail, by decide, by decide⟩,
    C2_failure_degrades_to_fallback
      [{ user_id := 1, name := "Pasta", quantity := 500, unit := "g", category := "Altro",
         min_quantity := 0, wasted := false }]
      (some "key") (.response 500 (.payload "oops")) (fun _ => .fail) [] [] none 5
      hfail (by decide) (by decide)⟩

end FoodFlow
